import Mathlib

/-!
Verification of the pending-request registry and batched release protocol of
the variable-debug web server (`main.go`).

The Go program keeps a mutex-protected `Server` value with two fields:
`pendingRequests []*pendingRequest` and `requestCounter int`.  Each inbound
HTTP request appends a fresh `pendingRequest` (carrying a fresh one-shot
channel) and bumps the counter; a stdin-reading loop swaps the slice for an
empty one on each input line and closes every drained channel in order.

We embed this shallowly: machine state is a `World` (the `Server` value, a
fresh-channel allocator modelling `make(chan struct\x7b\x7d)` heap
allocation, and the set of channels already closed).  The three critical
sections become the pure functions `registerRequest`, `drainAll` and
`waitForEnterIter`; an interleaving of lock acquisitions is a `List Event`
executed by `runTrace`.  The HTTP handler's interaction with its
`ResponseWriter` is embedded as an ordered list of `HttpEvent`s produced by
`handleRequest`.
-/

/-- Broken-down UTC wall-clock time: the observable content of a Go
`time.Time` value after `.UTC()` that RFC3339 formatting reads. -/
structure DateTimeUTC where
  year : Nat
  month : Nat
  day : Nat
  hour : Nat
  minute : Nat
  second : Nat
deriving DecidableEq, Repr

/-- Embeds Go struct `pendingRequest` (main.go).  `responseChan` is the
identity of the one-shot channel `make(chan struct\x7b\x7d)`; allocation is
modelled by a fresh-id counter in `World`. -/
structure PendingRequest where
  requestTime : DateTimeUTC
  responseChan : Nat
  remoteAddr : String
  path : String
  method : String
deriving DecidableEq, Repr

/-- Embeds Go struct `Server`: the mutex-protected registry state. -/
structure Server where
  pendingRequests : List PendingRequest
  requestCounter : Nat
deriving DecidableEq, Repr

/-- Whole-machine state: the shared `Server`, the heap allocator for
channels (each `make(chan struct\x7b\x7d)` yields the next fresh id), and
the ids of channels already closed by the release trigger. -/
structure World where
  server : Server
  nextChan : Nat
  closedChans : List Nat
deriving DecidableEq, Repr

/-- Embeds `NewServer()` plus process start: empty pending slice, zero
counter, no channels allocated or closed. -/
def initialWorld : World :=
  { server := { pendingRequests := [], requestCounter := 0 },
    nextChan := 0, closedChans := [] }

/-- The descriptive data of an inbound request: `r.RemoteAddr`, `r.URL.Path`,
`r.Method` and the `time.Now()` reading taken at the top of
`handleRequest`. -/
structure RequestInfo where
  remoteAddr : String
  path : String
  method : String
  arrivalTime : DateTimeUTC
deriving DecidableEq, Repr

/-- Embeds the registration part of `Server.handleRequest` (main.go lines
60-78): build a `pendingRequest` with a fresh channel, then under the lock
append it to `pendingRequests`, increment `requestCounter`, and read off the
request number and the pending count.  Returns the updated world, the new
request, `requestNum` and `pendingCount`. -/
def registerRequest (w : World) (info : RequestInfo) :
    World × PendingRequest × Nat × Nat :=
  let req : PendingRequest :=
    { requestTime := info.arrivalTime, responseChan := w.nextChan,
      remoteAddr := info.remoteAddr, path := info.path,
      method := info.method }
  let s := w.server
  let pending := s.pendingRequests ++ [req]
  let counter := s.requestCounter + 1
  let requestNum := counter
  let pendingCount := pending.length
  ({ server := { pendingRequests := pending, requestCounter := counter },
     nextChan := w.nextChan + 1, closedChans := w.closedChans },
   req, requestNum, pendingCount)

/-- Embeds the drain critical section of `Server.waitForEnter` (main.go
lines 114-118): read the pending slice, replace it with a fresh empty slice,
return the previous contents. -/
def drainAll (s : Server) : Server × List PendingRequest :=
  ({ pendingRequests := [], requestCounter := s.requestCounter },
   s.pendingRequests)

/-- What one iteration of `waitForEnter` reports on stdout. -/
inductive EnterOutput where
  | noPending
  | releasing (count : Nat)
deriving DecidableEq, Repr

/-- The diagnostic line each `EnterOutput` stands for (the `fmt.Println` /
`fmt.Printf` in `waitForEnter`). -/
def reportLine : EnterOutput → String
  | EnterOutput.noPending => "No pending requests"
  | EnterOutput.releasing n =>
      "\nReleasing " ++ Nat.repr n ++ " pending request(s)...\n"

/-- Embeds one iteration of the `Server.waitForEnter` loop body (main.go
lines 111-131): drain all pending requests; if the count is zero report
"No pending requests" and continue; otherwise report the count and close
each drained request's channel in slice order.  Returns the new world, the
report, and the ordered list of channel-close events of this iteration. -/
def waitForEnterIter (w : World) : World × EnterOutput × List Nat :=
  let s := (drainAll w.server).1
  let drained := (drainAll w.server).2
  let count := drained.length
  if count == 0 then
    ({ server := s, nextChan := w.nextChan, closedChans := w.closedChans },
     EnterOutput.noPending, [])
  else
    let closes := drained.map fun r => r.responseChan
    ({ server := s, nextChan := w.nextChan,
       closedChans := w.closedChans ++ closes },
     EnterOutput.releasing count, closes)

/-- One acquisition of the mutex: either a handler registering, or the
release trigger draining.  A trace of events is one interleaving of the
concurrent critical sections. -/
inductive Event where
  | register (info : RequestInfo)
  | enter
deriving DecidableEq, Repr

/-- Result of running a trace: final world, the `requestNum`s handed out in
order, the `pendingRequest`s created in order, and every channel-close in
the order it was performed. -/
structure RunResult where
  world : World
  seqNums : List Nat
  newReqs : List PendingRequest
  closes : List Nat
deriving DecidableEq, Repr

/-- Execute an interleaving of registrations and release triggers. -/
def runTrace : World → List Event → RunResult
  | w, [] => { world := w, seqNums := [], newReqs := [], closes := [] }
  | w, Event.register info :: es =>
      let p := registerRequest w info
      let r := runTrace p.1 es
      { world := r.world, seqNums := p.2.2.1 :: r.seqNums,
        newReqs := p.2.1 :: r.newReqs, closes := r.closes }
  | w, Event.enter :: es =>
      let p := waitForEnterIter w
      let r := runTrace p.1 es
      { world := r.world, seqNums := r.seqNums,
        newReqs := r.newReqs, closes := p.2.2 ++ r.closes }

/-- Number of registration events in a trace. -/
def countRegisters (es : List Event) : Nat :=
  es.countP fun e => match e with
    | Event.register _ => true
    | Event.enter => false

/-- Heap/state well-formedness maintained by the program: every pending or
closed channel id was allocated, pending channel ids are pairwise distinct,
closed ids are pairwise distinct, and no pending request's channel has been
closed yet. -/
def WorldInv (w : World) : Prop :=
  (∀ r ∈ w.server.pendingRequests, r.responseChan < w.nextChan) ∧
  (∀ c ∈ w.closedChans, c < w.nextChan) ∧
  (w.server.pendingRequests.map fun r => r.responseChan).Nodup ∧
  w.closedChans.Nodup ∧
  ∀ r ∈ w.server.pendingRequests, r.responseChan ∉ w.closedChans

/-- A digit character, as produced by Go `fmt`-style zero padding.  Taking
`n % 10` first keeps the output a single digit for any input; all call
sites pass values below 10 anyway. -/
def digitChar (n : Nat) : Char :=
  Char.ofNat (48 + n % 10)

/-- Two-digit zero-padded field, Go `%02d` on the domain `n < 100` (Go
month/day/hour/minute/second components always are). -/
def pad2 (n : Nat) : List Char :=
  [digitChar (n / 10), digitChar n]

/-- Four-digit zero-padded field, Go's year formatting on `0 ≤ n ≤ 9999`. -/
def pad4 (n : Nat) : List Char :=
  [digitChar (n / 1000), digitChar (n / 100), digitChar (n / 10), digitChar n]

/-- Embeds `time.Now().UTC().Format(time.RFC3339)` for an in-range UTC
time: layout `2006-01-02T15:04:05Z07:00`, whose offset part renders as
`Z` for UTC. -/
def formatRFC3339UTC (t : DateTimeUTC) : String :=
  String.mk (pad4 t.year ++ '-' :: pad2 t.month ++ '-' :: pad2 t.day ++
    'T' :: pad2 t.hour ++ ':' :: pad2 t.minute ++ ':' :: pad2 t.second ++
    ['Z'])

/-- Shape check: `s` looks like an RFC3339 / ISO-8601 UTC timestamp
`dddd-dd-ddTdd:dd:ddZ`. -/
def isRFC3339UTC (s : String) : Bool :=
  match s.toList with
  | [y1, y2, y3, y4, c1, m1, m2, c2, d1, d2, c3, h1, h2, c4, n1, n2, c5,
     s1, s2, c6] =>
      y1.isDigit && y2.isDigit && y3.isDigit && y4.isDigit &&
      m1.isDigit && m2.isDigit && d1.isDigit && d2.isDigit &&
      h1.isDigit && h2.isDigit && n1.isDigit && n2.isDigit &&
      s1.isDigit && s2.isDigit &&
      (c1 == '-') && (c2 == '-') && (c3 == 'T') && (c4 == ':') &&
      (c5 == ':') && (c6 == 'Z')
  | _ => false

/-- The components a Go `time.Time` always keeps in range (year bounded as
Go's RFC3339 layout assumes a four-digit year). -/
def ValidDateTimeUTC (t : DateTimeUTC) : Prop :=
  t.year ≤ 9999 ∧ 1 ≤ t.month ∧ t.month ≤ 12 ∧ 1 ≤ t.day ∧ t.day ≤ 31 ∧
  t.hour < 24 ∧ t.minute < 60 ∧ t.second < 60

instance (t : DateTimeUTC) : Decidable (ValidDateTimeUTC t) := by
  unfold ValidDateTimeUTC; infer_instance

/-- Embeds `json.NewEncoder(w).Encode(map[string]string\x7b"timestamp":
timestamp\x7d)`: the serialized object followed by the encoder's trailing
newline. -/
def timestampBody (t : DateTimeUTC) : String :=
  "\x7b\"timestamp\":\"" ++ formatRFC3339UTC t ++ "\"\x7d" ++ "\n"

/-- One interaction of `handleRequest` with its `http.ResponseWriter` or
its channel, in program order.  (The `fmt.Printf` diagnostics go to stdout,
not to the connection, and are not part of this wire-level trace.) -/
inductive HttpEvent where
  | setHeader (name value : String)
  | writeStatus (code : Nat)
  | flush
  | waitChan (ch : Nat)
  | writeBody (body : String)
deriving DecidableEq, Repr

/-- Embeds `Server.handleRequest` (main.go lines 60-107): register the
request, set `Content-Type: text/plain`, write status 200, flush, block on
the request's channel, then format the post-release clock reading `tStamp`
(the `time.Now().UTC()` taken after `<-req.responseChan`) and write the
JSON body.  Returns the post-registration world and the ordered event
trace of the connection. -/
def handleRequest (w : World) (info : RequestInfo) (tStamp : DateTimeUTC) :
    World × List HttpEvent :=
  let w1 := (registerRequest w info).1
  let req := (registerRequest w info).2.1
  (w1,
   [HttpEvent.setHeader "Content-Type" "text/plain",
    HttpEvent.writeStatus 200,
    HttpEvent.flush,
    HttpEvent.waitChan req.responseChan,
    HttpEvent.writeBody (timestampBody tStamp)])

/-- The first body written on the connection, if any. -/
def bodyOf (evs : List HttpEvent) : Option String :=
  evs.findSome? fun e => match e with
    | HttpEvent.writeBody b => some b
    | _ => none

/-- Embeds `os.Getenv`: result is the stored value, or `""` when the
variable is unset. -/
def getenv (env : List (String × String)) (key : String) : String :=
  match env.find? fun p => p.1 == key with
  | some p => p.2
  | none => ""

/-- Embeds the port selection in `main` (main.go lines 135-138):
`port := os.Getenv("PORT"); if port == "" \x7b port = "8080" \x7d`. -/
def mainPort (env : List (String × String)) : String :=
  let port := getenv env "PORT"
  if port == "" then "8080" else port

/-- Embeds `addr := fmt.Sprintf(":%s", port)`: the TCP listen address. -/
def serverAddr (env : List (String × String)) : String :=
  ":" ++ mainPort env

/-- Register a whole list of requests in order (a trace of consecutive
handler critical sections); returns the final world and the created
requests in registration order. -/
def registerAll : World → List RequestInfo → World × List PendingRequest
  | w, [] => (w, [])
  | w, i :: is =>
      let p := registerRequest w i
      let r := registerAll p.1 is
      (r.1, p.2.1 :: r.2)

/-- A concrete clock reading, used to instantiate theorems. -/
def demoTime : DateTimeUTC :=
  { year := 2025, month := 12, day := 15, hour := 12, minute := 34,
    second := 56 }

/-- A concrete inbound request, used to instantiate theorems. -/
def demoInfo : RequestInfo :=
  { remoteAddr := "127.0.0.1:50000", path := "/", method := "GET",
    arrivalTime := demoTime }

instance (w : World) : Decidable (WorldInv w) := by
  unfold WorldInv; infer_instance

/- ------------------------------------------------------------------ -/
/- Theorems                                                           -/
/- ------------------------------------------------------------------ -/

/-- Every character emitted by the zero-padding formatter is a digit. -/
theorem digitChar_isDigit (n : Nat) : (digitChar n).isDigit = true := by
  unfold digitChar
  have h : n % 10 < 10 := Nat.mod_lt _ (by omega)
  generalize hm : n % 10 = m at h ⊢
  interval_cases m <;> decide

/-- A release-trigger iteration never changes the channel allocator. -/
theorem waitForEnterIter_nextChan (w : World) :
    (waitForEnterIter w).1.nextChan = w.nextChan := by
  unfold waitForEnterIter
  dsimp only
  split <;> rfl

/-- Requests created during a trace all carry channels at or above the
starting world's allocator mark. -/
theorem runTrace_newReqs_chan_ge (es : List Event) (w : World) :
    ∀ r ∈ (runTrace w es).newReqs, w.nextChan ≤ r.responseChan := by
  induction es generalizing w with
  | nil => intro r hr; simp [runTrace] at hr
  | cons e es ih =>
    cases e with
    | register info =>
      intro r hr
      rcases List.mem_cons.mp hr with h | h
      · subst h; exact Nat.le_refl _
      · have := ih (registerRequest w info).1 r h
        have hstep : (registerRequest w info).1.nextChan = w.nextChan + 1 :=
          rfl
        omega
    | enter =>
      intro r hr
      have := ih (waitForEnterIter w).1 r hr
      rw [waitForEnterIter_nextChan] at this
      exact this

/-- C3: a release trigger that finds zero pending requests leaves the
Registry state (and the whole machine state) unchanged, fires no release
signal, and reports the informational "No pending requests" line rather
than an error. -/
theorem empty_release_noop (w : World)
    (h : w.server.pendingRequests = []) :
    waitForEnterIter w = (w, EnterOutput.noPending, []) ∧
    reportLine EnterOutput.noPending = "No pending requests" := by
  constructor
  · obtain ⟨⟨p, c⟩, n, cc⟩ := w
    simp only at h
    subst h
    rfl
  · rfl

/-- Witness for `empty_release_noop` at the initial server state. -/
theorem empty_release_noop_witness :
    waitForEnterIter initialWorld
      = (initialWorld, EnterOutput.noPending, []) ∧
    reportLine EnterOutput.noPending = "No pending requests" :=
  empty_release_noop initialWorld rfl

/-- C9: draining modifies only the pending sequence; the request counter
survives every drain, whether the drained batch is empty or not. -/
theorem drain_preserves_counter (w : World) :
    (drainAll w.server).1.requestCounter = w.server.requestCounter ∧
    (waitForEnterIter w).1.server.requestCounter
      = w.server.requestCounter := by
  refine ⟨rfl, ?_⟩
  unfold waitForEnterIter
  dsimp only
  split <;> rfl

/-- C8: the TCP listen port is the value of `PORT` when that variable is
set and non-empty, and `8080` when it is unset or empty. -/
theorem port_selection (env : List (String × String)) :
    (getenv env "PORT" ≠ "" →
      mainPort env = getenv env "PORT" ∧
      serverAddr env = ":" ++ getenv env "PORT") ∧
    (getenv env "PORT" = "" →
      mainPort env = "8080" ∧ serverAddr env = ":8080") := by
  constructor
  · intro h
    have hb : (getenv env "PORT" == "") = false := by
      simpa using h
    constructor
    · simp [mainPort, hb]
    · simp [serverAddr, mainPort, hb]
  · intro h
    constructor
    · simp [mainPort, h]
    · simp [serverAddr, mainPort, h]

/-- Witness for `port_selection`: a set, non-empty `PORT` and an empty
environment. -/
theorem port_selection_witness :
    mainPort [("PORT", "3000")] = "3000" ∧ mainPort [] = "8080" :=
  ⟨((port_selection [("PORT", "3000")]).1 (by decide)).1,
   ((port_selection []).2 rfl).1⟩

/-- C4: `register` increments the counter, builds a PendingRequest carrying
the request data and a fresh (never-used, never-closed) one-shot channel,
appends it to the pending sequence, and returns it with the new request
number and the current total pending count; it is a total function, so it
always succeeds. -/
theorem register_spec (w : World) (info : RequestInfo) (h : WorldInv w) :
    (registerRequest w info).1.server.requestCounter
      = w.server.requestCounter + 1 ∧
    (registerRequest w info).2.2.1 = w.server.requestCounter + 1 ∧
    (registerRequest w info).1.server.pendingRequests
      = w.server.pendingRequests ++ [(registerRequest w info).2.1] ∧
    (registerRequest w info).2.1
      = { requestTime := info.arrivalTime, responseChan := w.nextChan,
          remoteAddr := info.remoteAddr, path := info.path,
          method := info.method } ∧
    (registerRequest w info).2.2.2
      = (registerRequest w info).1.server.pendingRequests.length ∧
    ((registerRequest w info).2.1.responseChan
      ∉ w.server.pendingRequests.map fun r => r.responseChan) ∧
    (registerRequest w info).2.1.responseChan ∉ w.closedChans := by
  obtain ⟨h1, h2, -⟩ := h
  refine ⟨rfl, rfl, rfl, rfl, rfl, ?_, ?_⟩
  · intro hmem
    rcases List.mem_map.mp hmem with ⟨r, hr, he⟩
    have := h1 r hr
    have hc : (registerRequest w info).2.1.responseChan = w.nextChan := rfl
    omega
  · intro hmem
    have := h2 _ hmem
    have hc : (registerRequest w info).2.1.responseChan = w.nextChan := rfl
    omega

/-- Witness for `register_spec` at the initial server state. -/
theorem register_spec_witness :
    (registerRequest initialWorld demoInfo).2.2.1 = 1 ∧
    (registerRequest initialWorld demoInfo).2.2.2 = 1 := by
  have h := register_spec initialWorld demoInfo (by decide)
  exact ⟨h.2.1, h.2.2.2.2.1⟩

/-- C1: `drainAll` swaps the pending sequence for an empty one and returns
exactly the previous contents (so no entry is lost or duplicated and the
Registry afterwards holds zero pending requests), and no request registered
in any continuation after the drain took the lock is in the drained
batch. -/
theorem drainAll_spec (w : World) (es : List Event) (h : WorldInv w) :
    (drainAll w.server).1.pendingRequests = [] ∧
    (drainAll w.server).2 = w.server.pendingRequests ∧
    ∀ r ∈ (runTrace w (Event.enter :: es)).newReqs,
      r ∉ (drainAll w.server).2 := by
  refine ⟨rfl, rfl, ?_⟩
  intro r hr hmem
  have hlt : r.responseChan < w.nextChan := h.1 r hmem
  have hreqs : (runTrace w (Event.enter :: es)).newReqs
      = (runTrace (waitForEnterIter w).1 es).newReqs := rfl
  rw [hreqs] at hr
  have hge := runTrace_newReqs_chan_ge es (waitForEnterIter w).1 r hr
  rw [waitForEnterIter_nextChan] at hge
  omega

/-- Witness for `drainAll_spec`: one registered request, drained, and a
fresh registration after the drain. -/
theorem drainAll_spec_witness :
    (drainAll (registerRequest initialWorld demoInfo).1.server).1.pendingRequests
      = [] ∧
    (drainAll (registerRequest initialWorld demoInfo).1.server).2
      = (registerRequest initialWorld demoInfo).1.server.pendingRequests ∧
    ∀ r ∈ (runTrace (registerRequest initialWorld demoInfo).1
            (Event.enter :: [Event.register demoInfo])).newReqs,
      r ∉ (drainAll (registerRequest initialWorld demoInfo).1.server).2 :=
  drainAll_spec (registerRequest initialWorld demoInfo).1
    [Event.register demoInfo] (by decide)

/-- Across any interleaving, the request numbers handed out are the
consecutive integers starting just above the initial counter, and the
counter advances by exactly the number of registrations. -/
theorem runTrace_seqNums_range (es : List Event) (w : World) :
    (runTrace w es).seqNums
      = List.range' (w.server.requestCounter + 1) (countRegisters es) ∧
    (runTrace w es).world.server.requestCounter
      = w.server.requestCounter + countRegisters es := by
  induction es generalizing w with
  | nil => exact ⟨rfl, rfl⟩
  | cons e es ih =>
    cases e with
    | register info =>
      obtain ⟨ih1, ih2⟩ := ih (registerRequest w info).1
      have hcnt : (registerRequest w info).1.server.requestCounter
          = w.server.requestCounter + 1 := rfl
      have hn : countRegisters (Event.register info :: es)
          = countRegisters es + 1 := by
        simp [countRegisters, List.countP_cons]
      constructor
      · show (registerRequest w info).2.2.1
            :: (runTrace (registerRequest w info).1 es).seqNums
          = List.range' (w.server.requestCounter + 1)
              (countRegisters (Event.register info :: es))
        rw [hn, List.range'_succ, ih1, hcnt]
        rfl
      · show (runTrace (registerRequest w info).1 es).world.server.requestCounter
          = w.server.requestCounter + countRegisters (Event.register info :: es)
        rw [ih2, hcnt, hn]
        omega
    | enter =>
      obtain ⟨ih1, ih2⟩ := ih (waitForEnterIter w).1
      have hcnt : (waitForEnterIter w).1.server.requestCounter
          = w.server.requestCounter := (drain_preserves_counter w).2
      have hn : countRegisters (Event.enter :: es) = countRegisters es := by
        simp [countRegisters, List.countP_cons]
      constructor
      · show (runTrace (waitForEnterIter w).1 es).seqNums
          = List.range' (w.server.requestCounter + 1)
              (countRegisters (Event.enter :: es))
        rw [hn, ih1, hcnt]
      · show (runTrace (waitForEnterIter w).1 es).world.server.requestCounter
          = w.server.requestCounter + countRegisters (Event.enter :: es)
        rw [ih2, hcnt, hn]

/-- C2: for every interleaving containing N registrations, the request
numbers handed out are exactly 1..N in order — no duplicates, no gaps —
and the counter, starting at 0, is incremented exactly once per
registration and never decreases along the trace. -/
theorem seq_numbers_exact (es : List Event) :
    (runTrace initialWorld es).seqNums
      = List.range' 1 (countRegisters es) ∧
    (runTrace initialWorld es).seqNums.Nodup ∧
    (∀ k, k ∈ (runTrace initialWorld es).seqNums ↔
      1 ≤ k ∧ k ≤ countRegisters es) ∧
    (runTrace initialWorld es).world.server.requestCounter
      = countRegisters es ∧
    ∀ n, (runTrace initialWorld (es.take n)).world.server.requestCounter
      ≤ (runTrace initialWorld es).world.server.requestCounter := by
  obtain ⟨h1, h2⟩ := runTrace_seqNums_range es initialWorld
  have hc0 : initialWorld.server.requestCounter = 0 := rfl
  rw [hc0] at h1 h2
  refine ⟨h1, ?_, ?_, by omega, ?_⟩
  · rw [h1]; exact List.nodup_range' 1 (countRegisters es)
  · intro k
    rw [h1, List.mem_range'_1]
    omega
  · intro n
    obtain ⟨-, h3⟩ := runTrace_seqNums_range (es.take n) initialWorld
    rw [hc0] at h3
    rw [h2, h3]
    have hsub : countRegisters (es.take n) ≤ countRegisters es := by
      have := (List.take_sublist n es).countP_le (fun e => match e with
        | Event.register _ => true
        | Event.enter => false)
      simpa [countRegisters] using this
    omega

/-- C7: on a non-empty drained batch, the release trigger reports the count
released, closes each drained request's channel exactly once, empties the
registry, and the all-time close log stays duplicate-free (so no signal is
ever fired twice). -/
theorem release_fires_each_once (w : World) (h : WorldInv w)
    (hne : w.server.pendingRequests ≠ []) :
    (waitForEnterIter w).2.1
      = EnterOutput.releasing w.server.pendingRequests.length ∧
    (∀ r ∈ w.server.pendingRequests,
      ((waitForEnterIter w).2.2.count r.responseChan) = 1) ∧
    (waitForEnterIter w).1.server.pendingRequests = [] ∧
    (waitForEnterIter w).1.closedChans.Nodup := by
  obtain ⟨-, -, hnd, hcnd, hdisj⟩ := h
  have hlen : (w.server.pendingRequests.length == 0) = false := by
    simpa using hne
  have hiter : waitForEnterIter w
      = ({ server := (drainAll w.server).1, nextChan := w.nextChan,
           closedChans := w.closedChans
             ++ w.server.pendingRequests.map fun r => r.responseChan },
         EnterOutput.releasing w.server.pendingRequests.length,
         w.server.pendingRequests.map fun r => r.responseChan) := by
    unfold waitForEnterIter
    dsimp only
    rw [show (drainAll w.server).2 = w.server.pendingRequests from rfl, hlen]
    simp
  rw [hiter]
  refine ⟨rfl, ?_, rfl, ?_⟩
  · intro r hr
    exact List.count_eq_one_of_mem hnd (List.mem_map_of_mem _ hr)
  · refine List.Nodup.append hcnd hnd ?_
    intro c hc hcm
    rcases List.mem_map.mp hcm with ⟨r, hr, he⟩
    exact hdisj r hr (he ▸ hc)

/-- Witness for `release_fires_each_once`: one registered request. -/
theorem release_fires_each_once_witness :
    (waitForEnterIter (registerRequest initialWorld demoInfo).1).2.1
      = EnterOutput.releasing 1 := by
  have h := release_fires_each_once (registerRequest initialWorld demoInfo).1
    (by decide) (by decide)
  exact h.1

/-- Pendings after a bulk registration are the old ones followed by the new
requests in registration order. -/
theorem registerAll_pending (infos : List RequestInfo) (w : World) :
    (registerAll w infos).1.server.pendingRequests
      = w.server.pendingRequests ++ (registerAll w infos).2 := by
  induction infos generalizing w with
  | nil => simp [registerAll]
  | cons i is ih =>
    show (registerAll (registerRequest w i).1 is).1.server.pendingRequests
      = w.server.pendingRequests
        ++ ((registerRequest w i).2.1 :: (registerAll (registerRequest w i).1 is).2)
    rw [ih (registerRequest w i).1]
    show (registerRequest w i).1.server.pendingRequests ++ _ = _
    rw [show (registerRequest w i).1.server.pendingRequests
      = w.server.pendingRequests ++ [(registerRequest w i).2.1] from rfl]
    simp

/-- C10: the release trigger fires the drained channels sequentially in
exactly the order the requests were appended to the pending sequence, i.e.
registration order — whatever was already pending first, then each newly
registered request in the order it registered. -/
theorem release_order_matches_registration (w : World)
    (infos : List RequestInfo) :
    (waitForEnterIter (registerAll w infos).1).2.2
      = (w.server.pendingRequests ++ (registerAll w infos).2).map
          fun r => r.responseChan := by
  have hp := registerAll_pending infos w
  unfold waitForEnterIter
  dsimp only
  rw [show (drainAll (registerAll w infos).1.server).2
    = (registerAll w infos).1.server.pendingRequests from rfl, hp]
  by_cases hnil : w.server.pendingRequests ++ (registerAll w infos).2 = []
  · rw [hnil]; simp
  · have hz : ((w.server.pendingRequests ++ (registerAll w infos).2).length
        == 0) = false := by
      simpa using hnil
    rw [hz]
    simp

/-- The formatter always yields the RFC3339 / ISO-8601 UTC shape
`dddd-dd-ddTdd:dd:ddZ`. -/
theorem formatRFC3339UTC_shape (t : DateTimeUTC) :
    isRFC3339UTC (formatRFC3339UTC t) = true := by
  dsimp only [formatRFC3339UTC, pad4, pad2, isRFC3339UTC, String.toList,
    List.cons_append, List.nil_append]
  simp [digitChar_isDigit]

/-- C5: the released response body is exactly the JSON object with the one
field `timestamp`, whose value is the RFC3339 UTC rendering of the clock
reading taken after the release signal (followed by the encoder's trailing
newline); the body does not depend on the arrival time. -/
theorem released_body_json_timestamp (w : World) (info : RequestInfo)
    (t : DateTimeUTC) (h : ValidDateTimeUTC t) :
    bodyOf (handleRequest w info t).2
      = some ("\x7b\"timestamp\":\"" ++ formatRFC3339UTC t ++ "\"\x7d"
          ++ "\n") ∧
    isRFC3339UTC (formatRFC3339UTC t) = true ∧
    ∀ a : DateTimeUTC,
      bodyOf (handleRequest w
        { remoteAddr := info.remoteAddr, path := info.path,
          method := info.method, arrivalTime := a } t).2
        = bodyOf (handleRequest w info t).2 :=
  ⟨rfl, formatRFC3339UTC_shape t, fun _ => rfl⟩

/-- Witness for `released_body_json_timestamp` at a concrete clock
reading. -/
theorem released_body_json_timestamp_witness :
    bodyOf (handleRequest initialWorld demoInfo demoTime).2
      = some ("\x7b\"timestamp\":\"" ++ formatRFC3339UTC demoTime
          ++ "\"\x7d" ++ "\n") ∧
    isRFC3339UTC (formatRFC3339UTC demoTime) = true :=
  ⟨(released_body_json_timestamp initialWorld demoInfo demoTime
      (by decide)).1,
   (released_body_json_timestamp initialWorld demoInfo demoTime
      (by decide)).2.1⟩

/-- C6: the handler's connection trace is headers first, then the
suspension, then the body: `Content-Type: text/plain`, status 200 and the
flush all strictly precede the wait on the request's release channel, no
body byte is written before that wait, and a body is written after it. -/
theorem headers_flushed_before_wait_body_after (w : World)
    (info : RequestInfo) (t : DateTimeUTC) :
    ∃ pre post ch,
      (handleRequest w info t).2 = pre ++ HttpEvent.waitChan ch :: post ∧
      ch = (registerRequest w info).2.1.responseChan ∧
      HttpEvent.setHeader "Content-Type" "text/plain" ∈ pre ∧
      HttpEvent.writeStatus 200 ∈ pre ∧
      HttpEvent.flush ∈ pre ∧
      (∀ b, HttpEvent.writeBody b ∉ pre) ∧
      ∃ b, HttpEvent.writeBody b ∈ post := by
  refine ⟨[HttpEvent.setHeader "Content-Type" "text/plain",
      HttpEvent.writeStatus 200, HttpEvent.flush],
    [HttpEvent.writeBody (timestampBody t)],
    (registerRequest w info).2.1.responseChan, rfl, rfl, ?_, ?_, ?_, ?_,
    ⟨timestampBody t, ?_⟩⟩
  · simp
  · simp
  · simp
  · intro b; simp
  · simp
